import Mathlib

/-!
Shallow embedding of `graphic_pomme_env/graphic_pomme_env.py`.

Numpy arrays are modelled as shapes together with index functions;
`transpose` and `reshape` are index transformations, which is exactly
their numpy semantics (strided views / row-major re-division) on the
contiguous shapes used here.  Integer grids hold `Int` cells: the
dashboard writes the sentinel value `-1`, which numpy integer indexing
wraps to the last atlas slot.  Pixel channels are `Nat` values in
`[0, 255]`; no arithmetic in the file can overflow a `uint8` except the
channel mean, which is discussed at `prepare_dashboard`.

The sprite counts `len(constants.FILE_NAMES)` and
`len(constants.BOMB_FILE_NAMES)` are constants of the external
`pommerman` package; they are kept as parameters `K` and `B` of the
definitions that read them.
-/

/-- 2-D integer array (board grids, bomb-life grids, dashboard rows). -/
structure Np2 where
  d0 : Nat
  d1 : Nat
  get : Nat → Nat → Int

/-- 3-D pixel array: rows × cols × channels. -/
structure Np3 where
  d0 : Nat
  d1 : Nat
  d2 : Nat
  get : Nat → Nat → Nat → Nat

/-- 4-D sprite atlas: sprite index × sprite rows × sprite cols × channels. -/
structure Np4 where
  d0 : Nat
  d1 : Nat
  d2 : Nat
  d3 : Nat
  get : Nat → Nat → Nat → Nat → Nat

/-- Numpy integer indexing into an axis of length `n`: a negative index
`i` (with `-n ≤ i`) selects position `n + i`; for `-n ≤ i < n` this is
`i mod n`.  (Indices outside `[-n, n)` raise `IndexError` in numpy; every
claim below only reads in-range indices.) -/
def npIdx (n : Nat) (i : Int) : Nat := (i % (n : Int)).toNat

/-- `KEEP_MY_AGENT_SPRITE = constants.Item.Agent1.value  # 11`. -/
def KEEP_MY_AGENT_SPRITE : Int := 11

/-- One agent's observation record (the fields the renderer reads).
`can_kick` is kept numeric because the source compares `can_kick > 0`. -/
structure Obs where
  board : Np2
  bomb_life : Np2
  position : Nat × Nat
  alive : List Int
  blast_strength : Nat
  ammo : Nat
  can_kick : Nat
  my_sprite : Int

/-- `render_preprocessed_board(board, resources)`:
`inter1 = resources[board]` (a gather producing the logical 5-D array
`[d0, d1, g1, g2, ch]`), `inter2 = inter1.transpose(0, 2, 1, 3, 4)`
(axis permutation, giving `[d0, g1, d1, g2, ch]`), and a reshape to
`[d0*g1, d1*g2, ch]`.  Row-major reshape splits index `R` of the first
output axis into `(R / g1, R % g1)` and `C` into `(C / g2, C % g2)`. -/
def render_preprocessed_board (board : Np2) (res : Np4) : Np3 :=
  let inter1 : Nat → Nat → Nat → Nat → Nat → Nat := fun r c i j k =>
    res.get (npIdx res.d0 (board.get r c)) i j k
  let inter2 : Nat → Nat → Nat → Nat → Nat → Nat := fun r i c j k => inter1 r c i j k
  ⟨board.d0 * res.d1, board.d1 * res.d2, res.d3, fun R C k =>
    inter2 (R / res.d1) (R % res.d1) (C / res.d2) (C % res.d2) k⟩

/-- `__has_players = lambda ppboard: (ppboard >= 9) & (ppboard <= 13)`
(elementwise; modelled on one cell). -/
def __has_players (v : Int) : Bool := decide (9 ≤ v ∧ v ≤ 13)

/-- The first preprocessing statement of `preprocess_board`:
`board[(bombs != 0) & ~__has_players(board)] = bombs[...] + len(constants.FILE_NAMES)`
applied to a copy of the raw board.  `K = len(constants.FILE_NAMES)`. -/
def board_with_bombs (K : Nat) (board bombs : Np2) : Np2 :=
  ⟨board.d0, board.d1, fun r c =>
    if bombs.get r c ≠ 0 ∧ __has_players (board.get r c) = false then
      bombs.get r c + (K : Int)
    else board.get r c⟩

/-- `if np.any(board == KEEP_MY_AGENT_SPRITE): board[board == KEEP_MY_AGENT_SPRITE] = my_idx`. -/
def substitute_other (board : Np2) (my_sprite : Int) : Np2 :=
  if (List.range board.d0).any (fun r =>
      (List.range board.d1).any (fun c => board.get r c == KEEP_MY_AGENT_SPRITE)) then
    ⟨board.d0, board.d1, fun r c =>
      if board.get r c = KEEP_MY_AGENT_SPRITE then my_sprite else board.get r c⟩
  else board

/-- `if my_idx in obs['alive']: board[obs['position']] = KEEP_MY_AGENT_SPRITE`. -/
def substitute_self (board : Np2) (pos : Nat × Nat) (my_sprite : Int) (alive : List Int) : Np2 :=
  if my_sprite ∈ alive then
    ⟨board.d0, board.d1, fun r c =>
      if (r, c) = pos then KEEP_MY_AGENT_SPRITE else board.get r c⟩
  else board

/-- `preprocess_board(obs)`: copy the raw board, overwrite non-player bomb
cells with `bomb_timer + len(FILE_NAMES)`, substitute the placeholder code
by `my_sprite`, then force the agent's own position to the placeholder
when it is alive. -/
def preprocess_board (K : Nat) (obs : Obs) : Np2 :=
  substitute_self
    (substitute_other (board_with_bombs K obs.board obs.bomb_life) obs.my_sprite)
    obs.position obs.my_sprite obs.alive

/-- `__offset = lambda x, scale: x*scale`. -/
def __offset (x scale : Nat) : Nat := x * scale

/-- `__half_texture = lambda scale: scale//2`. -/
def __half_texture (scale : Nat) : Nat := scale / 2

/-- `__quarter_texture = lambda scale: scale//4 + scale//8`. -/
def __quarter_texture (scale : Nat) : Nat := scale / 4 + scale / 8

/-- `__get_bomb = lambda res, state: res[len(constants.FILE_NAMES) + state]`:
the countdown-stage sprite for timer value `state`, as a pixel function. -/
def __get_bomb (K : Nat) (res : Np4) (state : Int) : Nat → Nat → Nat → Nat :=
  fun i j k => res.get (npIdx res.d0 ((K : Int) + state)) i j k

/-- `__where_agent = lambda ppboard: np.transpose(np.nonzero(__has_players(ppboard))).tolist()`:
the row-major list of coordinates whose cell holds a player code. -/
def __where_agent (pp : Np2) : List (Nat × Nat) :=
  (List.range pp.d0).flatMap (fun r =>
    (List.range pp.d1).filterMap (fun c =>
      if __has_players (pp.get r c) then some (r, c) else none))

/-- One iteration of the `for player in players` loop of
`postprocess_board`: when the player's coordinate has a nonzero bomb
countdown, assign the slice
`rendered[r*s + s//2 + s//4 + s//8 : (r+1)*s, c*s : (c+1)*s, :]`
from the matching lower rows of the countdown-stage sprite. -/
def writeBombBar (K : Nat) (res : Np4) (bombs : Np2) (img : Np3) (p : Nat × Nat) : Np3 :=
  let scale := res.d1
  if bombs.get p.1 p.2 ≠ 0 then
    ⟨img.d0, img.d1, img.d2, fun R C k =>
      if __offset p.1 scale + __half_texture scale + __quarter_texture scale ≤ R ∧
          R < __offset (p.1 + 1) scale ∧
          __offset p.2 scale ≤ C ∧ C < __offset (p.2 + 1) scale then
        __get_bomb K res (bombs.get p.1 p.2) (R - __offset p.1 scale) (C - __offset p.2 scale) k
      else img.get R C k⟩
  else img

/-- `postprocess_board(rendered_board, res, bombs, ppboard)`: overlay a
small bomb-countdown bar on every player-occupied cell standing on a live
bomb.  (`board_size = rendered_board.shape[0]//scale` is computed by the
source but never used.) -/
def postprocess_board (K : Nat) (rendered : Np3) (res : Np4) (bombs : Np2) (ppboard : Np2) : Np3 :=
  (__where_agent ppboard).foldl (writeBombBar K res bombs) rendered

/-- The board-size bound used when clamping `blast_strength` in
`prepare_dashboard`: `board_size-(1 if board_size%2==1 else 0)`. -/
def bs_board_bound (board_size : Nat) : Nat :=
  board_size - (if board_size % 2 = 1 then 1 else 0)

/-- The board-size bound used when clamping `ammo` in `prepare_dashboard`:
`board_size-(1 if board_size%2==1 else 2)`.  (`Nat` subtraction matches
Python here for every `board_size ≥ 1`.) -/
def ammo_board_bound (board_size : Nat) : Nat :=
  board_size - (if board_size % 2 = 1 then 1 else 2)

/-- `min(obs['blast_strength'], len(constants.BOMB_FILE_NAMES), bs_board_bound)`. -/
def blast_clamp (B declared board_size : Nat) : Nat :=
  min declared (min B (bs_board_bound board_size))

/-- `min(obs['ammo'], len(constants.BOMB_FILE_NAMES), ammo_board_bound)`. -/
def ammo_clamp (B declared board_size : Nat) : Nat :=
  min declared (min B (ammo_board_bound board_size))

/-- The value of `conversion_array[0, j]` after the three sequential
writes of `prepare_dashboard` (a later write overwrites an earlier one):
initialise to `-1`; `conversion_array[0, 0:(bs+1)//2] = 4` (blast side);
`conversion_array[:, ::-1][0, 0:(ammo+1)//2] = 3` (ammo side, mirrored,
i.e. positions `j < n` with `n-1-j < (ammo+1)//2`);
`conversion_array[0, n//2] = 8 if can_kick > 0 else -1` (kick centre).
Slices are truncated at the row length `n`, as in Python. -/
def conversion_cell (bs ammo can_kick n j : Nat) : Int :=
  if j = n / 2 then (if can_kick > 0 then 8 else -1)
  else if j < n ∧ n - 1 - j < (ammo + 1) / 2 then 3
  else if j < n ∧ j < (bs + 1) / 2 then 4
  else -1

/-- `prepare_dashboard(obs, res, scale, board_size)`.  After rendering the
1×`board_size` conversion row through `render_preprocessed_board`, the
source blackens the trailing half sprite of the last blast cell when the
clamped blast strength is odd, the trailing half sprite of the last ammo
cell in the mirrored view (`rendered_array[:, ::-1, :]`, so column `C`
is touched when `n*scale - 1 - C` lies in the mirrored slice) when the
clamped ammo is odd, and finally replaces every channel by the per-pixel
channel mean.  `mean(axis=2)` is a float mean assigned back into a
`uint8` array, i.e. truncated; for three channel values `≤ 255` the
float mean truncates exactly to the `Nat` quotient `sum / 3` (the sum is
exact in a double, and when `3` does not divide the sum the quotient's
fractional part is `1/3` or `2/3`, far from the rounding error). -/
def prepare_dashboard (B : Nat) (obs : Obs) (res : Np4) (scale board_size : Nat) : Np3 :=
  let blast_strength := blast_clamp B obs.blast_strength board_size
  let ammo := ammo_clamp B obs.ammo board_size
  let conv : Np2 := ⟨1, board_size, fun _ j =>
    conversion_cell blast_strength ammo obs.can_kick board_size j⟩
  let rendered := render_preprocessed_board conv res
  let r1 : Np3 :=
    if blast_strength % 2 = 1 then
      ⟨rendered.d0, rendered.d1, rendered.d2, fun R C k =>
        if __offset (blast_strength / 2) scale + __half_texture scale ≤ C ∧
            C < __offset (blast_strength / 2 + 1) scale ∧ C < rendered.d1 then 0
        else rendered.get R C k⟩
    else rendered
  let r2 : Np3 :=
    if ammo % 2 = 1 then
      ⟨r1.d0, r1.d1, r1.d2, fun R C k =>
        if __offset (ammo / 2) scale + __half_texture scale ≤ r1.d1 - 1 - C ∧
            r1.d1 - 1 - C < __offset (ammo / 2 + 1) scale ∧ C < r1.d1 then 0
        else r1.get R C k⟩
    else r1
  ⟨r2.d0, r2.d1, r2.d2, fun R C _ =>
    ((List.range r2.d2).map (fun k => r2.get R C k)).sum / r2.d2⟩

/-! ### The `lastobs_raw` cache of `PommeGraphic` -/

/-- The error raised by `get_last_step_raw`. -/
inductive RenderError where
  | resetNeeded

/-- The mutable state read by `get_last_step_raw`: `self.lastobs_raw`. -/
structure EnvCache where
  lastobs_raw : Option (List Obs)

/-- `self.lastobs_raw = None` in `__init__`. -/
def init_cache : EnvCache := ⟨none⟩

/-- `self.lastobs_raw = obs`, executed by both `reset` and `step`. -/
def cache_store (_s : EnvCache) (obs : List Obs) : EnvCache := ⟨some obs⟩

/-- Python truthiness of `self.lastobs_raw`: `None` and the empty list
are falsy, every nonempty list is truthy. -/
def pyTruthy (x : Option (List Obs)) : Bool :=
  match x with
  | none => false
  | some l => !l.isEmpty

/-- `get_last_step_raw`: `if self.lastobs_raw: return self.lastobs_raw
else: raise ResetNeeded(...)`. -/
def get_last_step_raw (s : EnvCache) : Except RenderError (List Obs) :=
  if pyTruthy s.lastobs_raw then Except.ok (s.lastobs_raw.getD [])
  else Except.error RenderError.resetNeeded

/-- The cache after a sequence of reset/step calls, each storing the
observation list the simulator returned. -/
def run_cache (evs : List (List Obs)) : EnvCache :=
  evs.foldl cache_store init_cache

/-! ### PIL images and the tiling helpers -/

/-- A PIL image: `px x y` reads column `x`, row `y` (PIL coordinates:
`x` grows rightward, `y` grows downward). -/
structure Img where
  width : Nat
  height : Nat
  px : Nat → Nat → Nat × Nat × Nat

/-- `Image.new('RGB', (w, h))`: a black image. -/
def image_new (w h : Nat) : Img := ⟨w, h, fun _ _ => (0, 0, 0)⟩

/-- `dst.paste(src, (x0, y0))`: pixels inside the pasted rectangle come
from `src`, the rest keep `dst`. -/
def paste (dst src : Img) (pos : Nat × Nat) : Img :=
  ⟨dst.width, dst.height, fun x y =>
    if pos.1 ≤ x ∧ x < pos.1 + src.width ∧ pos.2 ≤ y ∧ y < pos.2 + src.height then
      src.px (x - pos.1) (y - pos.2)
    else dst.px x y⟩

/-- `get_concat_h(im1, im2)`. -/
def get_concat_h (im1 im2 : Img) : Img :=
  paste (paste (image_new (im1.width + im2.width) im1.height) im1 (0, 0)) im2 (im1.width, 0)

/-- `get_concat_v(im1, im2)`. -/
def get_concat_v (im1 im2 : Img) : Img :=
  paste (paste (image_new im1.width (im1.height + im2.height)) im1 (0, 0)) im2 (0, im1.height)

/-- `tile_four_images(ims)`: `get_concat_h(get_concat_v(ims[0], ims[1]),
get_concat_v(ims[2], ims[3]))`. -/
def tile_four_images (ims : List Img) : Img :=
  get_concat_h (get_concat_v (ims.getD 0 (image_new 0 0)) (ims.getD 1 (image_new 0 0)))
    (get_concat_v (ims.getD 2 (image_new 0 0)) (ims.getD 3 (image_new 0 0)))

/-- `Image.fromarray(o)` for an `[h, w, 3]` pixel array: width is the
second array axis, and `px x y` reads array position `(y, x)`. -/
def Image_fromarray (a : Np3) : Img :=
  ⟨a.d1, a.d0, fun x y => (a.get y x 0, a.get y x 1, a.get y x 2)⟩

/-- `render_tiled_observations(self, obs)`: convert each observation
image to a PIL image and tile; a list whose length is neither 4 nor 2
falls through both branches, returning `None`. -/
def render_tiled_observations (obs : List Np3) : Option Img :=
  let images := obs.map Image_fromarray
  if images.length = 4 then some (tile_four_images images)
  else if images.length = 2 then
    some (get_concat_h (images.getD 0 (image_new 0 0)) (images.getD 1 (image_new 0 0)))
  else none

/-! ### A heap model for the in-place numpy writes of `preprocess_board`

`preprocess_board` mutates arrays in place; to state that it never
mutates its input observation, arrays live in a heap of numbered cells
and the observation holds array references.  `.copy()` allocates a fresh
cell; every masked assignment of the source writes through the copied
reference. -/

structure Heap where
  arr : Nat → Np2
  fresh : Nat

/-- `src.copy()`: allocate a fresh cell holding the same grid. -/
def heap_copy (h : Heap) (src : Nat) : Heap × Nat :=
  (⟨Function.update h.arr h.fresh (h.arr src), h.fresh + 1⟩, h.fresh)

/-- An in-place assignment through reference `tgt`. -/
def heap_write (h : Heap) (tgt : Nat) (g : Np2) : Heap :=
  ⟨Function.update h.arr tgt g, h.fresh⟩

/-- An observation holding references to its `board` and `bomb_life`
arrays (the two arrays `preprocess_board` reads). -/
structure ObsRef where
  board : Nat
  bomb_life : Nat
  position : Nat × Nat
  alive : List Int
  my_sprite : Int

/-- `preprocess_board` as it executes on the heap: copy the board, then
perform the three in-place updates through the copied reference, reading
`bomb_life` through the observation's reference.  Returns the final heap
and the reference to the coded grid. -/
def preprocess_board_run (K : Nat) (h : Heap) (o : ObsRef) : Heap × Nat :=
  let step1 := heap_copy h o.board
  let h1 := step1.1
  let bid := step1.2
  let h2 := heap_write h1 bid (board_with_bombs K (h1.arr bid) (h1.arr o.bomb_life))
  let h3 := heap_write h2 bid (substitute_other (h2.arr bid) o.my_sprite)
  let h4 := heap_write h3 bid (substitute_self (h3.arr bid) o.position o.my_sprite o.alive)
  (h4, bid)

/-- The pure observation read off the heap (the renderer-relevant fields;
the dashboard fields are irrelevant to `preprocess_board`). -/
def obs_of_heap (h : Heap) (o : ObsRef) : Obs :=
  ⟨h.arr o.board, h.arr o.bomb_life, o.position, o.alive, 0, 0, 0, o.my_sprite⟩

/-! ### Concrete instances used by witnesses and counterexamples -/

/-- A 2-entry atlas of 1×1 sprites: sprite 0 grey (128), sprite 1 white (255). -/
def checker_res : Np4 := ⟨2, 1, 1, 3, fun n _ _ _ => if n = 0 then 128 else 255⟩

/-- The coded grid `[[0, 1], [1, 0]]`. -/
def checker_board : Np2 := ⟨2, 2, fun r c => if r = c then 0 else 1⟩

/-- Atlas for the `postprocess_board` examples: `K = 14` material
sprites, bomb-countdown sprites from index 14 on; 8×8 sprites with 3
channels; the countdown sprite for timer 1 (index 15) is all-1 and every
other sprite is all-0. -/
def cx_res : Np4 := ⟨25, 8, 8, 3, fun n _ _ _ => if n = 15 then 1 else 0⟩

/-- An all-zero rendered board of one 8×8 cell. -/
def cx_rendered : Np3 := ⟨8, 8, 3, fun _ _ _ => 0⟩

/-- A 1×1 coded grid holding the player code 10 (`Agent0`). -/
def cx_pp : Np2 := ⟨1, 1, fun _ _ => 10⟩

/-- A 1×1 bomb-life grid with countdown 1. -/
def cx_bombs : Np2 := ⟨1, 1, fun _ _ => 1⟩


/-- A 1×1 raw board holding a non-player material code 0. -/
def w4_board : Np2 := ⟨1, 1, fun _ _ => 0⟩

/-- A 1×1 raw board holding the player code 10. -/
def w4_board_p : Np2 := ⟨1, 1, fun _ _ => 10⟩

/-- An observation of a 1×1 board whose agent (code 10) is alive. -/
def w5_obsA : Obs := ⟨⟨1, 1, fun _ _ => 10⟩, ⟨1, 1, fun _ _ => 0⟩, (0, 0), [10], 0, 0, 0, 10⟩

/-- The same observation with an empty alive list (the agent is dead). -/
def w5_obsD : Obs := ⟨⟨1, 1, fun _ _ => 10⟩, ⟨1, 1, fun _ _ => 0⟩, (0, 0), [], 0, 0, 0, 10⟩


/-- An observation carrying only the dashboard-relevant status fields. -/
def dash_obs (bs a kick : Nat) : Obs :=
  ⟨⟨0, 0, fun _ _ => 0⟩, ⟨0, 0, fun _ _ => 0⟩, (0, 0), [], bs, a, kick, 0⟩


/-- A concrete dashboard atlas: `K = 14`, `B = 10`, 1×1 sprites, the
spare slot (index 24) all-zero and every other sprite constant 7. -/
def wdash_res : Np4 := ⟨25, 1, 1, 3, fun idx _ _ _ => if idx = 24 then 0 else 7⟩


/-- A two-cell heap: cell 0 the raw board (player code 10), cell 1 the
bomb-life grid; next fresh reference is 2. -/
def w9_heap : Heap := ⟨fun a => if a = 0 then ⟨1, 1, fun _ _ => 10⟩ else ⟨1, 1, fun _ _ => 1⟩, 2⟩

/-- An observation referencing heap cells 0 (board) and 1 (bomb life). -/
def w9_obs : ObsRef := ⟨0, 1, (0, 0), [10], 10⟩


/-- A 1×1 image of constant channel value `v`. -/
def w8_im (v : Nat) : Img := ⟨1, 1, fun _ _ => (v, v, v)⟩

/-! ## Theorems -/

/-- Claim C1: for every square coded grid whose cells are all valid atlas
indices, `render_preprocessed_board` returns an array of shape
`(rows*sprite_rows, cols*sprite_cols, channels)`, and the sprite of cell
`(r, c)` occupies exactly the pixel block
`[r*g, (r+1)*g) × [c*g, (c+1)*g)`; moreover the 2×2 grid `[[0,1],[1,0]]`
over a grey/white atlas with sprite size 1 composites to the exact 2×2
checkerboard. -/
theorem render_preprocessed_board_blocks (board : Np2) (res : Np4)
    (hsq : board.d0 = board.d1)
    (hvalid : ∀ r < board.d0, ∀ c < board.d1,
      0 ≤ board.get r c ∧ board.get r c < (res.d0 : Int)) :
    (render_preprocessed_board board res).d0 = board.d0 * res.d1 ∧
    (render_preprocessed_board board res).d1 = board.d1 * res.d2 ∧
    (render_preprocessed_board board res).d2 = res.d3 ∧
    (∀ r c i j k, r < board.d0 → c < board.d1 → i < res.d1 → j < res.d2 →
      (render_preprocessed_board board res).get (r * res.d1 + i) (c * res.d2 + j) k =
        res.get (board.get r c).toNat i j k) ∧
    (∀ r < 2, ∀ c < 2, ∀ k < 3,
      (render_preprocessed_board checker_board checker_res).get r c k =
        if r = c then 128 else 255) := by
  refine ⟨rfl, rfl, rfl, ?_, by decide⟩
  intro r c i j k hr hc hi hj
  have hg1 : 0 < res.d1 := lt_of_le_of_lt (Nat.zero_le i) hi
  have hg2 : 0 < res.d2 := lt_of_le_of_lt (Nat.zero_le j) hj
  have e1 : (r * res.d1 + i) / res.d1 = r := by
    rw [Nat.mul_comm, Nat.add_comm, Nat.add_mul_div_left _ _ hg1,
      Nat.div_eq_of_lt hi, Nat.zero_add]
  have e2 : (r * res.d1 + i) % res.d1 = i := by
    rw [Nat.mul_comm, Nat.add_comm, Nat.add_mul_mod_self_left, Nat.mod_eq_of_lt hi]
  have e3 : (c * res.d2 + j) / res.d2 = c := by
    rw [Nat.mul_comm, Nat.add_comm, Nat.add_mul_div_left _ _ hg2,
      Nat.div_eq_of_lt hj, Nat.zero_add]
  have e4 : (c * res.d2 + j) % res.d2 = j := by
    rw [Nat.mul_comm, Nat.add_comm, Nat.add_mul_mod_self_left, Nat.mod_eq_of_lt hj]
  show res.get (npIdx res.d0 (board.get ((r * res.d1 + i) / res.d1) ((c * res.d2 + j) / res.d2)))
      ((r * res.d1 + i) % res.d1) ((c * res.d2 + j) % res.d2) k =
    res.get (board.get r c).toNat i j k
  rw [e1, e2, e3, e4]
  obtain ⟨h0, h1⟩ := hvalid r hr c hc
  have hrw : npIdx res.d0 (board.get r c) = (board.get r c).toNat := by
    unfold npIdx
    rw [Int.emod_eq_of_lt h0 h1]
  rw [hrw]

/-- Witness for C1: the checkerboard instance, pixel by pixel. -/
theorem render_preprocessed_board_blocks_witness :
    (render_preprocessed_board checker_board checker_res).get 0 0 0 = 128 ∧
    (render_preprocessed_board checker_board checker_res).get 0 1 0 = 255 ∧
    (render_preprocessed_board checker_board checker_res).get 1 0 0 = 255 ∧
    (render_preprocessed_board checker_board checker_res).get 1 1 0 = 128 := by
  have h := (render_preprocessed_board_blocks checker_board checker_res rfl
    (by decide)).2.2.2.2
  exact ⟨by simpa using h 0 (by decide) 0 (by decide) 0 (by decide),
    by simpa using h 0 (by decide) 1 (by decide) 0 (by decide),
    by simpa using h 1 (by decide) 0 (by decide) 0 (by decide),
    by simpa using h 1 (by decide) 1 (by decide) 0 (by decide)⟩

/-- Claim C4: in the bomb-overwrite step of `preprocess_board`, every
cell with a nonzero countdown whose raw board cell is not a player code
becomes `bomb_timer + K` (`K` = count of named material sprites), and
every cell with a nonzero countdown that does hold a player code keeps
its raw board value at that step. -/
theorem board_with_bombs_spec (K : Nat) (board bombs : Np2) (r c : Nat)
    (hsh0 : bombs.d0 = board.d0) (hsh1 : bombs.d1 = board.d1)
    (hr : r < board.d0) (hc : c < board.d1)
    (hb : bombs.get r c ≠ 0) :
    (__has_players (board.get r c) = false →
      (board_with_bombs K board bombs).get r c = bombs.get r c + (K : Int)) ∧
    (__has_players (board.get r c) = true →
      (board_with_bombs K board bombs).get r c = board.get r c) := by
  constructor
  · intro hp
    simp [board_with_bombs, hb, hp]
  · intro hp
    simp [board_with_bombs, hb, hp]

/-- Witness for C4: timer 1 over material 0 becomes `1 + 14 = 15`; timer
1 under the player code 10 leaves the cell at 10. -/
theorem board_with_bombs_spec_witness :
    (board_with_bombs 14 w4_board cx_bombs).get 0 0 = 15 ∧
    (board_with_bombs 14 w4_board_p cx_bombs).get 0 0 = 10 := by
  constructor
  · have h := (board_with_bombs_spec 14 w4_board cx_bombs 0 0 rfl rfl
      (by decide) (by decide) (by decide)).1 (by decide)
    simpa using h
  · have h := (board_with_bombs_spec 14 w4_board_p cx_bombs 0 0 rfl rfl
      (by decide) (by decide) (by decide)).2 (by decide)
    simpa using h

/-- Claim C5: after `preprocess_board`, if the viewing agent's sprite
code is in the alive list then the coded grid at the agent's own
position holds the generic placeholder `KEEP_MY_AGENT_SPRITE`; if it is
not alive, the final step never forces the position to the placeholder:
the position keeps exactly the value the preceding substitution steps
produced. -/
theorem preprocess_board_identity (K : Nat) (obs : Obs)
    (hr : obs.position.1 < obs.board.d0) (hc : obs.position.2 < obs.board.d1) :
    (obs.my_sprite ∈ obs.alive →
      (preprocess_board K obs).get obs.position.1 obs.position.2 = KEEP_MY_AGENT_SPRITE) ∧
    (obs.my_sprite ∉ obs.alive →
      (preprocess_board K obs).get obs.position.1 obs.position.2 =
        (substitute_other (board_with_bombs K obs.board obs.bomb_life) obs.my_sprite).get
          obs.position.1 obs.position.2) := by
  constructor
  · intro ha
    unfold preprocess_board substitute_self
    rw [if_pos ha]
    show (if (obs.position.1, obs.position.2) = obs.position then KEEP_MY_AGENT_SPRITE
      else _) = KEEP_MY_AGENT_SPRITE
    rw [if_pos rfl]
  · intro ha
    unfold preprocess_board substitute_self
    rw [if_neg ha]

/-- Witness for C5: the alive agent's cell is forced to 11; the dead
agent's cell keeps the value of the preceding steps. -/
theorem preprocess_board_identity_witness :
    (preprocess_board 14 w5_obsA).get 0 0 = KEEP_MY_AGENT_SPRITE ∧
    (preprocess_board 14 w5_obsD).get 0 0 =
      (substitute_other (board_with_bombs 14 w5_obsD.board w5_obsD.bomb_life)
        w5_obsD.my_sprite).get 0 0 := by
  exact ⟨(preprocess_board_identity 14 w5_obsA (by decide) (by decide)).1 (by decide),
    (preprocess_board_identity 14 w5_obsD (by decide) (by decide)).2 (by decide)⟩

/-- Block-interval membership: a pixel row `r*s + i` (with `i < s`) lies
in the row band `[p*s + off, (p+1)*s)` exactly when `p = r` and
`off ≤ i`. -/
lemma region_iff (s off p r i : Nat) (hi : i < s) :
    (p * s + off ≤ r * s + i ∧ r * s + i < (p + 1) * s) ↔ (p = r ∧ off ≤ i) := by
  rw [Nat.succ_mul]
  constructor
  · rintro ⟨h1, h2⟩
    rcases Nat.lt_trichotomy p r with h | h | h
    · have h3 := Nat.mul_le_mul_right s (show p + 1 ≤ r from h)
      rw [Nat.succ_mul] at h3
      omega
    · subst h; omega
    · have h3 := Nat.mul_le_mul_right s (show r + 1 ≤ p from h)
      rw [Nat.succ_mul] at h3
      omega
  · rintro ⟨rfl, h⟩
    omega

/-- Coordinates produced by `__where_agent` are exactly the in-range
cells holding a player code. -/
lemma mem_where_agent (pp : Np2) (r c : Nat) :
    (r, c) ∈ __where_agent pp ↔
      r < pp.d0 ∧ c < pp.d1 ∧ __has_players (pp.get r c) = true := by
  unfold __where_agent
  simp only [List.mem_flatMap, List.mem_filterMap, List.mem_range]
  constructor
  · rintro ⟨a, ha, b, hb, h⟩
    by_cases hp : __has_players (pp.get a b) = true
    · rw [if_pos hp] at h
      obtain ⟨rfl, rfl⟩ := Prod.mk.injEq .. ▸ Option.some.inj h
      exact ⟨ha, hb, hp⟩
    · rw [if_neg hp] at h
      exact absurd h (Option.noConfusion)
  · rintro ⟨hr, hc, hp⟩
    exact ⟨r, hr, c, hc, by rw [if_pos hp]⟩

/-- Pointwise effect of folding `writeBombBar` over a list of player
coordinates: the pixel `(r*s + i, c*s + j)` is overwritten exactly when
`(r, c)` is in the list, its bomb countdown is nonzero, and `i` lies at
or below the `s//2 + s//4 + s//8` offset. -/
lemma foldl_writeBombBar (K : Nat) (res : Np4) (bombs : Np2) (L : List (Nat × Nat))
    (img : Np3) (r c i j k : Nat) (hi : i < res.d1) (hj : j < res.d1) :
    (L.foldl (writeBombBar K res bombs) img).get (r * res.d1 + i) (c * res.d1 + j) k =
      if (r, c) ∈ L ∧ bombs.get r c ≠ 0 ∧
          __half_texture res.d1 + __quarter_texture res.d1 ≤ i then
        __get_bomb K res (bombs.get r c) i j k
      else img.get (r * res.d1 + i) (c * res.d1 + j) k := by
  induction L generalizing img with
  | nil => simp
  | cons p L ih =>
    rw [List.foldl_cons, ih]
    by_cases htail : (r, c) ∈ L ∧ bombs.get r c ≠ 0 ∧
        __half_texture res.d1 + __quarter_texture res.d1 ≤ i
    · rw [if_pos htail, if_pos ⟨List.mem_cons_of_mem p htail.1, htail.2⟩]
    · rw [if_neg htail]
      by_cases hhead : p = (r, c) ∧ bombs.get r c ≠ 0 ∧
          __half_texture res.d1 + __quarter_texture res.d1 ≤ i
      · obtain ⟨hpe, hb0, hoff⟩ := hhead
        subst hpe
        rw [if_pos ⟨List.mem_cons_self _ _, hb0, hoff⟩]
        unfold writeBombBar
        rw [if_pos hb0]
        show (if __offset r res.d1 + __half_texture res.d1 + __quarter_texture res.d1 ≤
            r * res.d1 + i ∧ r * res.d1 + i < __offset (r + 1) res.d1 ∧
            __offset c res.d1 ≤ c * res.d1 + j ∧ c * res.d1 + j < __offset (c + 1) res.d1 then
          __get_bomb K res (bombs.get r c) (r * res.d1 + i - __offset r res.d1)
            (c * res.d1 + j - __offset c res.d1) k
        else img.get (r * res.d1 + i) (c * res.d1 + j) k) = __get_bomb K res (bombs.get r c) i j k
        rw [if_pos ?cond]
        case cond =>
          simp only [__offset, __half_texture, __quarter_texture] at hoff ⊢
          refine ⟨by omega, ?_, by omega, ?_⟩
          · rw [Nat.succ_mul]; omega
          · rw [Nat.succ_mul]; omega
        have e1 : r * res.d1 + i - __offset r res.d1 = i := by unfold __offset; omega
        have e2 : c * res.d1 + j - __offset c res.d1 = j := by unfold __offset; omega
        rw [e1, e2]
      · rw [if_neg (by
          rw [List.mem_cons]
          rintro ⟨h1 | h1, h2, h3⟩
          · exact hhead ⟨h1.symm, h2, h3⟩
          · exact htail ⟨h1, h2, h3⟩)]
        unfold writeBombBar
        by_cases hb : bombs.get p.1 p.2 ≠ 0
        · rw [if_pos hb]
          show (if __offset p.1 res.d1 + __half_texture res.d1 + __quarter_texture res.d1 ≤
              r * res.d1 + i ∧ r * res.d1 + i < __offset (p.1 + 1) res.d1 ∧
              __offset p.2 res.d1 ≤ c * res.d1 + j ∧
              c * res.d1 + j < __offset (p.2 + 1) res.d1 then
            __get_bomb K res (bombs.get p.1 p.2) (r * res.d1 + i - __offset p.1 res.d1)
              (c * res.d1 + j - __offset p.2 res.d1) k
          else img.get (r * res.d1 + i) (c * res.d1 + j) k) =
            img.get (r * res.d1 + i) (c * res.d1 + j) k
          rw [if_neg ?noreg]
          case noreg =>
            unfold __offset __half_texture __quarter_texture
            rintro ⟨h1, h2, h3, h4⟩
            have hrow := (region_iff res.d1 (res.d1 / 2 + (res.d1 / 4 + res.d1 / 8))
              p.1 r i hi).mp ⟨by omega, h2⟩
            have hcol := (region_iff res.d1 0 p.2 c j hj).mp ⟨by omega, h4⟩
            exact hhead ⟨by
              obtain ⟨hp1, _⟩ := hrow
              obtain ⟨hp2, _⟩ := hcol
              exact Prod.ext hp1 hp2, by
              obtain ⟨hp1, _⟩ := hrow
              obtain ⟨hp2, _⟩ := hcol
              rw [← hp1, ← hp2]
              exact hb, by
              obtain ⟨_, hoff⟩ := hrow
              unfold __half_texture __quarter_texture
              omega⟩
        · rw [if_neg hb]

/-- Claim C2 (amended): for every player-occupied cell `(r, c)` of the
coded grid whose coordinate has a nonzero bomb countdown,
`postprocess_board` overwrites exactly the rows of that cell's
`s × s` pixel block from offset `s//2 + s//4 + s//8` downward (the lower
~12.5 %) with the corresponding lower rows of the countdown-stage sprite
for that timer value, and leaves every other pixel of the rendered board
unchanged. -/
theorem postprocess_board_overlay (K : Nat) (rendered : Np3) (res : Np4) (bombs : Np2)
    (ppboard : Np2) (r c i j k : Nat)
    (hr : r < ppboard.d0) (hc : c < ppboard.d1) (hi : i < res.d1) (hj : j < res.d1) :
    (postprocess_board K rendered res bombs ppboard).get (r * res.d1 + i) (c * res.d1 + j) k =
      if __has_players (ppboard.get r c) = true ∧ bombs.get r c ≠ 0 ∧
          __half_texture res.d1 + __quarter_texture res.d1 ≤ i then
        __get_bomb K res (bombs.get r c) i j k
      else rendered.get (r * res.d1 + i) (c * res.d1 + j) k := by
  unfold postprocess_board
  rw [foldl_writeBombBar K res bombs _ rendered r c i j k hi hj]
  have hmem : ((r, c) ∈ __where_agent ppboard) ↔ __has_players (ppboard.get r c) = true := by
    rw [mem_where_agent]
    simp [hr, hc]
  rw [if_congr (and_congr_left' hmem) rfl rfl]

/-- Counterexample to C2 as stated: with 8×8 sprites, on a one-cell board
holding player code 10 over a bomb with countdown 1, the claim's "lower
~37.5 % (half plus a further eighth)" region starts at sprite row
`8/2 + 8/8 = 5`, but the code leaves row 5 at its original value 0
instead of the countdown sprite's value 1; only row 7 (offset
`8//2 + 8//4 + 8//8 = 7`) is overwritten. -/
theorem postprocess_board_overlay_cx :
    8 / 2 + 8 / 8 ≤ 5 ∧
    __get_bomb 14 cx_res (cx_bombs.get 0 0) 5 0 0 = 1 ∧
    (postprocess_board 14 cx_rendered cx_res cx_bombs cx_pp).get 5 0 0 = 0 := by
  refine ⟨by decide, by decide, ?_⟩
  decide

/-- Witness for C2: row 7 of the one-cell example is overwritten with the
countdown sprite value 1, row 6 keeps the rendered value 0. -/
theorem postprocess_board_overlay_witness :
    (postprocess_board 14 cx_rendered cx_res cx_bombs cx_pp).get 7 0 0 = 1 ∧
    (postprocess_board 14 cx_rendered cx_res cx_bombs cx_pp).get 6 0 0 = 0 := by
  constructor
  · have h := postprocess_board_overlay 14 cx_rendered cx_res cx_bombs cx_pp 0 0 7 0 0
      (by decide) (by decide) (by decide) (by decide)
    rw [if_pos (by refine ⟨by decide, by decide, by decide⟩)] at h
    have e : __get_bomb 14 cx_res (cx_bombs.get 0 0) 7 0 0 = 1 := by decide
    rw [e] at h
    simpa using h
  · have h := postprocess_board_overlay 14 cx_rendered cx_res cx_bombs cx_pp 0 0 6 0 0
      (by decide) (by decide) (by decide) (by decide)
    rw [if_neg (by
      rintro ⟨h1, h2, h3⟩
      revert h3
      decide)] at h
    simpa using h

/-- Counterexample to C3 as stated: for the odd board size 11 the
board-size bound used for ammo equals the bound used for blast strength
(both are 10); they do not differ by 1. -/
theorem dashboard_ammo_clamp_cx :
    11 % 2 = 1 ∧ bs_board_bound 11 = 10 ∧ ammo_board_bound 11 = 10 ∧
    ¬ (ammo_board_bound 11 + 1 = bs_board_bound 11 ∨
       bs_board_bound 11 + 1 = ammo_board_bound 11) := by
  decide

/-- Claim C3 (amended): `ammo` is clamped by the same
`min(declared, B, board-size bound)` rule as `blast_strength`, except
that the board-size bound used for ammo equals the blast bound when
`board_size` is odd and is 2 less when `board_size` is even; the right
side then fills `ceil(clamped_ammo / 2)` cells from the last column
leftward with the ammo sprite index 3. -/
theorem dashboard_ammo_clamp_fill (B declared n : Nat) (hn : 1 ≤ n) :
    (n % 2 = 1 → ammo_board_bound n = bs_board_bound n) ∧
    (n % 2 = 0 → bs_board_bound n = ammo_board_bound n + 2) ∧
    (∀ bs kick j, j < n → n - (ammo_clamp B declared n + 1) / 2 ≤ j →
      conversion_cell bs (ammo_clamp B declared n) kick n j = 3) := by
  have ha : ammo_clamp B declared n ≤ ammo_board_bound n :=
    le_trans (min_le_right _ _) (min_le_right _ _)
  refine ⟨?_, ?_, ?_⟩
  · intro h
    unfold ammo_board_bound bs_board_bound
    rw [if_pos h, if_pos h]
  · intro h
    unfold ammo_board_bound bs_board_bound
    rw [if_neg (by omega), if_neg (by omega)]
    omega
  · intro bs kick j hj hge
    have hcl : n / 2 < j := by
      unfold ammo_board_bound at ha
      rcases Nat.mod_two_eq_zero_or_one n with h | h
      · rw [if_neg (by omega)] at ha
        omega
      · rw [if_pos h] at ha
        omega
    unfold conversion_cell
    rw [if_neg (by omega), if_pos ⟨hj, by omega⟩]

/-- Witness for C3: board size 11 (odd) has equal bounds, and with
`B = 10`, declared ammo 7 the last column holds the ammo sprite 3. -/
theorem dashboard_ammo_clamp_fill_witness :
    ammo_board_bound 11 = bs_board_bound 11 ∧
    conversion_cell 5 (ammo_clamp 10 7 11) 0 11 10 = 3 := by
  have h := dashboard_ammo_clamp_fill 10 7 11 (by decide)
  exact ⟨h.1 (by decide), h.2.2 5 0 10 (by decide) (by decide)⟩

/-- Numpy indexing sends the blank sentinel `-1` to the last slot of an
axis of positive length `m`. -/
lemma npIdx_neg_one (m : Nat) (hm : 1 ≤ m) : npIdx m (-1) = m - 1 := by
  unfold npIdx
  have h3 : ((m : Int) - 1) % (m : Int) = (-1 + (m : Int) * 1) % (m : Int) := by ring_nf
  rw [Int.add_mul_emod_self_left] at h3
  have h2 : ((-1 : Int) % (m : Int)) = (m : Int) - 1 := by
    rw [← h3, Int.emod_eq_of_lt (by omega) (by omega)]
  rw [h2]
  omega

/-- The dashboard conversion row with all-zero status is the constant
blank sentinel `-1`. -/
lemma conversion_cell_zero (n j : Nat) : conversion_cell 0 0 0 n j = -1 := by
  simp [conversion_cell]

/-- Claim C6: with `blast_strength = 0`, `ammo = 0`, `can_kick` false,
every cell of the 1×11 dashboard row is the blank sentinel (which numpy
indexing maps to the spare atlas slot, rendering as all-zero pixels);
with `blast_strength = 5` on an 11-wide board, exactly the 3 leftmost
cells get the blast-strength sprite 4, and the trailing half-sprite
sliver of the 3rd cell is blacked out. -/
theorem prepare_dashboard_invariant (K B s : Nat) (res : Np4)
    (hd0 : res.d0 = K + B + 1) (hd1 : res.d1 = s) (hd2 : res.d2 = s) (hd3 : res.d3 = 3)
    (hB : 5 ≤ B) (hs : 1 ≤ s)
    (hspare : ∀ i j k, res.get (K + B) i j k = 0) :
    (∀ j < 11, conversion_cell (blast_clamp B 0 11) (ammo_clamp B 0 11) 0 11 j = -1) ∧
    (∀ R C k, R < s → C < 11 * s → k < 3 →
      (prepare_dashboard B (dash_obs 0 0 0) res s 11).get R C k = 0) ∧
    (∀ j < 11, (conversion_cell (blast_clamp B 5 11) (ammo_clamp B 0 11) 0 11 j = 4 ↔ j < 3)) ∧
    (∀ R C k, R < s → 2 * s + s / 2 ≤ C → C < 3 * s → k < 3 →
      (prepare_dashboard B (dash_obs 5 0 0) res s 11).get R C k = 0) := by
  have hbc0 : blast_clamp B 0 11 = 0 := by
    simp [blast_clamp]
  have hac0 : ammo_clamp B 0 11 = 0 := by
    simp [ammo_clamp]
  have hbc5 : blast_clamp B 5 11 = 5 := by
    simp [blast_clamp, bs_board_bound]
    omega
  refine ⟨?_, ?_, ?_, ?_⟩
  · intro j _
    rw [hbc0, hac0]
    exact conversion_cell_zero 11 j
  · intro R C k hR hC hk
    simp only [prepare_dashboard, dash_obs, render_preprocessed_board]
    rw [hbc0, hac0]
    norm_num
    have hconv : ∀ j, conversion_cell 0 0 0 11 j = -1 := conversion_cell_zero 11
    rw [hd3]
    have hlast : npIdx res.d0 (-1) = K + B := by
      rw [hd0, npIdx_neg_one (K + B + 1) (by omega)]
      omega
    simp [List.range_succ, hconv, hlast, hspare]
  · intro j hj
    rw [hbc5, hac0]
    revert hj
    revert j
    decide
  · intro R C k hR hC1 hC2 hk
    simp only [prepare_dashboard, dash_obs, render_preprocessed_board]
    rw [hbc5, hac0]
    norm_num
    have hcond : __offset (5 / 2) s + __half_texture s ≤ C ∧
        C < __offset (5 / 2 + 1) s ∧ C < 11 * res.d2 := by
      unfold __offset __half_texture
      norm_num
      refine ⟨by omega, by omega, by rw [hd2]; omega⟩
    rw [hd3]
    simp [List.range_succ, hcond]

/-- Witness for C6 at `K = 14`, `B = 10`, sprite size 1. -/
theorem prepare_dashboard_invariant_witness :
    conversion_cell (blast_clamp 10 0 11) (ammo_clamp 10 0 11) 0 11 0 = -1 ∧
    (prepare_dashboard 10 (dash_obs 0 0 0) wdash_res 1 11).get 0 0 0 = 0 ∧
    conversion_cell (blast_clamp 10 5 11) (ammo_clamp 10 0 11) 0 11 2 = 4 ∧
    (prepare_dashboard 10 (dash_obs 5 0 0) wdash_res 1 11).get 0 2 0 = 0 := by
  have h := prepare_dashboard_invariant 14 10 1 wdash_res rfl rfl rfl rfl
    (by decide) (by decide) (fun _ _ _ => rfl)
  exact ⟨h.1 0 (by decide),
    h.2.1 0 0 0 (by decide) (by decide) (by decide),
    (h.2.2.1 2 (by decide)).mpr (by decide),
    h.2.2.2 0 2 0 (by decide) (by decide) (by decide) (by decide)⟩

/-- Counterexample to C7 as stated: a reset that stores the empty
observation list still raises `ResetNeeded` (Python truthiness treats an
empty list like `None`), so the getter does not return every most
recently cached list. -/
theorem get_last_step_raw_cx :
    get_last_step_raw (cache_store init_cache []) = Except.error RenderError.resetNeeded ∧
    get_last_step_raw (cache_store init_cache []) ≠ Except.ok [] := by
  refine ⟨rfl, ?_⟩
  intro hcon
  rw [show get_last_step_raw (cache_store init_cache []) =
    Except.error RenderError.resetNeeded from rfl] at hcon
  exact Except.noConfusion hcon

/-- Claim C7 (amended): `get_last_step_raw` raises `ResetNeeded` exactly
when no reset/step has run yet or the most recent one stored an empty
observation list; otherwise it returns the observation list stored by
the most recent reset/step. -/
theorem get_last_step_raw_spec (evs : List (List Obs)) :
    get_last_step_raw (run_cache evs) =
      match evs.getLast? with
      | none => Except.error RenderError.resetNeeded
      | some l =>
          if l.isEmpty then Except.error RenderError.resetNeeded else Except.ok l := by
  induction evs using List.reverseRecOn with
  | nil => rfl
  | append_singleton xs x _ =>
    rw [show run_cache (xs ++ [x]) = cache_store (run_cache xs) x by
      simp [run_cache, List.foldl_append]]
    rw [List.getLast?_concat]
    cases x with
    | nil => rfl
    | cons a l => rfl

/-- Claim C10: `render_tiled_observations` produces an image exactly for
input lists of length 2 or 4; every other length returns `None` (no
exception is modelled: the function is total). -/
theorem render_tiled_observations_length (obs : List Np3) :
    (render_tiled_observations obs).isSome = true ↔
      obs.length = 2 ∨ obs.length = 4 := by
  unfold render_tiled_observations
  simp only [List.length_map]
  by_cases h4 : obs.length = 4
  · simp [h4]
  · by_cases h2 : obs.length = 2
    · simp [h2, h4]
    · simp [h2, h4]

/-- Running `preprocess_board` on the heap never writes any pre-existing
array: all four writes target the fresh copy. -/
lemma preprocess_run_preserves (K : Nat) (h : Heap) (o : ObsRef) (a : Nat)
    (ha : a < h.fresh) :
    ((preprocess_board_run K h o).1).arr a = h.arr a := by
  have hane : a ≠ h.fresh := Nat.ne_of_lt ha
  simp [preprocess_board_run, heap_copy, heap_write, Function.update_noteq hane]

/-- The grid read back through the returned reference equals the pure
`preprocess_board` of the observation's initial heap values. -/
lemma preprocess_run_value (K : Nat) (h : Heap) (o : ObsRef)
    (hb : o.board < h.fresh) (hl : o.bomb_life < h.fresh) :
    ((preprocess_board_run K h o).1).arr (preprocess_board_run K h o).2 =
      preprocess_board K (obs_of_heap h o) := by
  have hbne : o.board ≠ h.fresh := Nat.ne_of_lt hb
  have hlne : o.bomb_life ≠ h.fresh := Nat.ne_of_lt hl
  simp [preprocess_board_run, heap_copy, heap_write, preprocess_board, obs_of_heap,
    Function.update_same, Function.update_noteq hbne, Function.update_noteq hlne]

/-- Claim C9: `preprocess_board` behaves as a pure function of its input
observation: the run leaves every pre-existing heap array (in particular
the observation's board and bomb-life arrays) unchanged, its result is
the pure `preprocess_board` of the input values, and running it twice on
the same raw observation yields identical coded grids. -/
theorem preprocess_board_run_spec (K : Nat) (h : Heap) (o : ObsRef)
    (hb : o.board < h.fresh) (hl : o.bomb_life < h.fresh) :
    (∀ a, a < h.fresh → ((preprocess_board_run K h o).1).arr a = h.arr a) ∧
    ((preprocess_board_run K h o).1).arr (preprocess_board_run K h o).2 =
      preprocess_board K (obs_of_heap h o) ∧
    ((preprocess_board_run K ((preprocess_board_run K h o).1) o).1).arr
        (preprocess_board_run K ((preprocess_board_run K h o).1) o).2 =
      ((preprocess_board_run K h o).1).arr (preprocess_board_run K h o).2 := by
  have hfresh : ((preprocess_board_run K h o).1).fresh = h.fresh + 1 := by
    simp [preprocess_board_run, heap_copy, heap_write]
  refine ⟨fun a ha => preprocess_run_preserves K h o a ha,
    preprocess_run_value K h o hb hl, ?_⟩
  rw [preprocess_run_value K h o hb hl,
    preprocess_run_value K ((preprocess_board_run K h o).1) o (by omega) (by omega)]
  congr 1
  unfold obs_of_heap
  rw [preprocess_run_preserves K h o o.board hb, preprocess_run_preserves K h o o.bomb_life hl]

/-- Witness for C9: on a concrete two-cell heap the run preserves the
input board array and returns the pure preprocessing result. -/
theorem preprocess_board_run_spec_witness :
    ((preprocess_board_run 14 w9_heap w9_obs).1).arr 0 = w9_heap.arr 0 ∧
    ((preprocess_board_run 14 w9_heap w9_obs).1).arr (preprocess_board_run 14 w9_heap w9_obs).2 =
      preprocess_board 14 (obs_of_heap w9_heap w9_obs) := by
  have h := preprocess_board_run_spec 14 w9_heap w9_obs (by decide) (by decide)
  exact ⟨h.1 0 (by decide), h.2.1⟩

/-- Claim C8: for four equal-sized images, `tile_four_images` builds a
composite of twice the width and height with image 0 top-left, image 1
bottom-left, image 2 top-right, image 3 bottom-right; for two images,
`get_concat_h` places them side by side left-to-right in input order. -/
theorem tile_four_images_layout (im0 im1 im2 im3 : Img) (w h : Nat)
    (h0w : im0.width = w) (h0h : im0.height = h)
    (h1w : im1.width = w) (h1h : im1.height = h)
    (h2w : im2.width = w) (h2h : im2.height = h)
    (h3w : im3.width = w) (h3h : im3.height = h) :
    (tile_four_images [im0, im1, im2, im3]).width = 2 * w ∧
    (tile_four_images [im0, im1, im2, im3]).height = 2 * h ∧
    (∀ x y, x < w → y < h →
      (tile_four_images [im0, im1, im2, im3]).px x y = im0.px x y ∧
      (tile_four_images [im0, im1, im2, im3]).px x (h + y) = im1.px x y ∧
      (tile_four_images [im0, im1, im2, im3]).px (w + x) y = im2.px x y ∧
      (tile_four_images [im0, im1, im2, im3]).px (w + x) (h + y) = im3.px x y) ∧
    (get_concat_h im0 im1).width = 2 * w ∧
    (get_concat_h im0 im1).height = h ∧
    (∀ x y, x < w → y < h →
      (get_concat_h im0 im1).px x y = im0.px x y ∧
      (get_concat_h im0 im1).px (w + x) y = im1.px x y) := by
  refine ⟨?_, ?_, ?_, ?_, ?_, ?_⟩
  · simp only [tile_four_images, get_concat_h, get_concat_v, paste, image_new,
      List.getD_cons_zero, List.getD_cons_succ, h0w, h2w]
    omega
  · simp only [tile_four_images, get_concat_h, get_concat_v, paste, image_new,
      List.getD_cons_zero, List.getD_cons_succ, h0h, h1h]
    omega
  · intro x y hx hy
    refine ⟨?_, ?_, ?_, ?_⟩ <;>
    · simp only [tile_four_images, get_concat_h, get_concat_v, paste, image_new,
        List.getD_cons_zero, List.getD_cons_succ, h0w, h0h, h1w, h1h, h2w, h2h, h3w, h3h]
      split_ifs <;> first | (exfalso; omega) | (congr 1 <;> omega)
  · simp only [get_concat_h, paste, image_new, h0w, h1w]
    omega
  · simp only [get_concat_h, paste, image_new, h0h]
  · intro x y hx hy
    refine ⟨?_, ?_⟩ <;>
    · simp only [get_concat_h, paste, image_new, h0w, h0h, h1w, h1h]
      split_ifs <;> first | (exfalso; omega) | (congr 1 <;> omega)

/-- Witness for C8: four distinct 1×1 images tile into the expected 2×2
layout, and two images concatenate left-to-right. -/
theorem tile_four_images_layout_witness :
    (tile_four_images [w8_im 1, w8_im 2, w8_im 3, w8_im 4]).width = 2 ∧
    (tile_four_images [w8_im 1, w8_im 2, w8_im 3, w8_im 4]).px 0 0 = (1, 1, 1) ∧
    (tile_four_images [w8_im 1, w8_im 2, w8_im 3, w8_im 4]).px 0 1 = (2, 2, 2) ∧
    (tile_four_images [w8_im 1, w8_im 2, w8_im 3, w8_im 4]).px 1 0 = (3, 3, 3) ∧
    (tile_four_images [w8_im 1, w8_im 2, w8_im 3, w8_im 4]).px 1 1 = (4, 4, 4) ∧
    (get_concat_h (w8_im 1) (w8_im 2)).px 1 0 = (2, 2, 2) := by
  have ht := tile_four_images_layout (w8_im 1) (w8_im 2) (w8_im 3) (w8_im 4) 1 1
    rfl rfl rfl rfl rfl rfl rfl rfl
  have hpx := ht.2.2.1 0 0 (by decide) (by decide)
  have hpx2 := ht.2.2.2.2.2 0 0 (by decide) (by decide)
  exact ⟨ht.1, hpx.1, hpx.2.1, hpx.2.2.1, hpx.2.2.2, hpx2.2⟩
